import Mathlib

/-!
Shallow embedding of the `@kaizen/audio-recorder` core components
(`audio-recorder.core.ts`, `silence-detector.core.ts`,
`audio-analyzer.core.ts`, `stream-manager.core.ts`) and proofs about them.

Conventions of the embedding:
* A `Blob` is its byte content (`List Nat`) plus its MIME `type` string;
  `new Blob(parts, {type})` concatenates the parts' bytes.
* Event callbacks (`this.events`) are registered callback identifiers
  (`Option Nat`); `cb?.(x)` is modelled as emitting an `Emit` entry when the
  identifier is present.
* Platform capabilities (`window.MediaRecorder`, `MediaRecorder.isTypeSupported`,
  whether `new MediaRecorder(stream, {mimeType})` + `.start()` succeed) are a
  `Platform` record; the methods are parameterised by it.
* Asynchronous platform callbacks (`dataavailable`, `stop`) are explicit
  events delivered to the instance state by `platformDataEvent` /
  `platformStopEvent`; `stop()`'s promise resolution is the `resolved` field.
-/

namespace Kaizen

/-- `enum RecordingState { Idle, Recording, Processing }` (types.ts). -/
inductive RecordingState where
  | idle
  | recording
  | processing
deriving DecidableEq, Repr

/-- A binary blob: byte content plus declared MIME type. -/
structure Blob where
  data : List Nat
  type : String
deriving DecidableEq, Repr

/-- `blob.size` — the byte length. -/
def Blob.size (b : Blob) : Nat := b.data.length

/-- `enum AudioMimeType` (audio-recorder.core.ts). -/
def AudioMimeType.WEBM : String := "audio/webm"

def AudioMimeType.MP4 : String := "audio/mp4"

def AudioMimeType.OGG : String := "audio/ogg"

/-- `DEFAULT_MIME_TYPE = AudioMimeType.WEBM`. -/
def DEFAULT_MIME_TYPE : String := AudioMimeType.WEBM

/-- `interface AudioRecorderCoreOptions { mimeType?: string }`. -/
structure AudioRecorderCoreOptions where
  mimeType : Option String := none

/-- `interface AudioRecorderCoreEvents` — registered callbacks, as identifiers
(`none` = not registered). -/
structure AudioRecorderCoreEvents where
  onStateChange : Option Nat := none
  onDataAvailable : Option Nat := none
  onError : Option Nat := none
  onStop : Option Nat := none
deriving DecidableEq, Repr

/-- The platform `MediaRecorder` handle: we track its negotiated `mimeType`. -/
structure MediaRecorderM where
  mimeType : String
deriving DecidableEq, Repr

/-- Platform capabilities visible to `AudioRecorderCore`. -/
structure Platform where
  /-- `typeof window !== 'undefined' && 'MediaRecorder' in window`. -/
  isSupported : Bool
  /-- `MediaRecorder.isTypeSupported(type)`. -/
  isTypeSupported : String → Bool
  /-- whether `new MediaRecorder(stream, { mimeType })` (and the subsequent
  `.start()`) succeeds for this mime type. -/
  newRecorderOk : String → Bool

/-- Instance state of `AudioRecorderCore`. -/
structure Core where
  mediaRecorder : Option MediaRecorderM := none
  audioChunks : List Blob := []
  state : RecordingState := RecordingState.idle
  events : AudioRecorderCoreEvents := {}
  /-- the three listeners added in `start()` are attached (removed in `cleanup()`). -/
  listenersAttached : Bool := false
  /-- a `handleFinalStop` listener from an in-flight `stop()` is attached. -/
  pendingFinalStop : Bool := false
deriving DecidableEq, Repr

/-- A fresh instance (`new AudioRecorderCore(options)`). -/
def Core.init : Core := {}

/-- Observable callback invocations. -/
inductive Emit where
  | stateChange (cb : Nat) (s : RecordingState)
  | dataAvailable (cb : Nat) (b : Blob)
  | errorEvent (cb : Nat) (code : String)
  | stopEvent (cb : Nat) (b : Blob)
deriving DecidableEq, Repr

/-- `private setState(newState)`: update state, notify `onStateChange`. -/
def setStateCore (c : Core) (s : RecordingState) : Core × List Emit :=
  ({ c with state := s },
   match c.events.onStateChange with
   | some cb => [Emit.stateChange cb s]
   | none => [])

/-- `on(events)`: `this.events = { ...this.events, ...events }` — supplied
callbacks override, others are kept. -/
def onEvents (c : Core) (e : AudioRecorderCoreEvents) : Core :=
  { c with events :=
    { onStateChange := e.onStateChange <|> c.events.onStateChange,
      onDataAvailable := e.onDataAvailable <|> c.events.onDataAvailable,
      onError := e.onError <|> c.events.onError,
      onStop := e.onStop <|> c.events.onStop } }

/-- `static getSupportedMimeType(preferredType)`: probe
`[preferredType || DEFAULT_MIME_TYPE, WEBM, MP4, OGG]` and return the first
the platform reports encodable, `null` if none (or if unsupported). -/
def getSupportedMimeType (p : Platform) (preferredType : Option String) :
    Option String :=
  if p.isSupported = false then none
  else
    let firstCandidate :=
      match preferredType with
      | some s => if s = "" then DEFAULT_MIME_TYPE else s
      | none => DEFAULT_MIME_TYPE
    let typesToTry :=
      [firstCandidate, AudioMimeType.WEBM, AudioMimeType.MP4, AudioMimeType.OGG]
    typesToTry.find? (fun t => p.isTypeSupported t)

/-- Result of a call to `start()`. -/
structure StartOut where
  core : Core
  emits : List Emit
  /-- the `AudioRecordingError.code` thrown to the caller, if any. -/
  threw : Option String
deriving Repr

/-- `async start(stream)`. The `try` block's failure points (`throw` at the
unreachable empty-mime check, `new MediaRecorder` / `.start()`) all land in the
`catch`, which does `setState(Idle)`, fires `onError`, and rethrows with code
`RECORDING_FAILED`. -/
def startCore (p : Platform) (options : AudioRecorderCoreOptions) (c : Core) :
    StartOut :=
  if p.isSupported = false then
    { core := c,
      emits :=
        match c.events.onError with
        | some cb => [Emit.errorEvent cb "NOT_SUPPORTED"]
        | none => [],
      threw := some "NOT_SUPPORTED" }
  else
    let mimeType := (getSupportedMimeType p options.mimeType).getD DEFAULT_MIME_TYPE
    let tryFailed : Bool := mimeType = "" || !p.newRecorderOk mimeType
    if tryFailed then
      let (c1, e1) := setStateCore c RecordingState.idle
      { core := c1,
        emits := e1 ++
          (match c1.events.onError with
           | some cb => [Emit.errorEvent cb "RECORDING_FAILED"]
           | none => []),
        threw := some "RECORDING_FAILED" }
    else
      let c1 := { c with mediaRecorder := some { mimeType := mimeType },
                         audioChunks := [] }
      let (c2, e2) := setStateCore c1 RecordingState.recording
      { core := { c2 with listenersAttached := true }, emits := e2, threw := none }

/-- Result of the synchronous part of a call to `stop()`. -/
structure StopOut where
  core : Core
  emits : List Emit
  /-- an immediate resolution of the returned promise, when it does not wait
  for the platform `stop` event. -/
  resolved : Option Blob
deriving Repr

/-- `async stop()`: if no recorder or not `'recording'`, resolve at once with
`new Blob([], { type: DEFAULT_MIME_TYPE })` and do nothing else; otherwise
`setState(Processing)`, attach `handleFinalStop`, call the platform stop. -/
def stopCore (c : Core) : StopOut :=
  if c.mediaRecorder = none ∨ c.state ≠ RecordingState.recording then
    { core := c, emits := [],
      resolved := some { data := [], type := DEFAULT_MIME_TYPE } }
  else
    let (c1, e1) := setStateCore c RecordingState.processing
    { core := { c1 with pendingFinalStop := true }, emits := e1, resolved := none }

/-- `new Blob(this.audioChunks, { type: this.mediaRecorder?.mimeType || DEFAULT_MIME_TYPE })`. -/
def mkClipBlob (c : Core) : Blob :=
  { data := (c.audioChunks.map Blob.data).flatten,
    type :=
      match c.mediaRecorder with
      | some r => if r.mimeType = "" then DEFAULT_MIME_TYPE else r.mimeType
      | none => DEFAULT_MIME_TYPE }

/-- `private handleDataAvailable = (event)`: append `event.data` to
`audioChunks` and fire `onDataAvailable` — guarded only by `size > 0`. -/
def handleDataAvailable (c : Core) (b : Blob) : Core × List Emit :=
  if 0 < b.size then
    ({ c with audioChunks := c.audioChunks ++ [b] },
     match c.events.onDataAvailable with
     | some cb => [Emit.dataAvailable cb b]
     | none => [])
  else (c, [])

/-- Delivery of a platform `dataavailable` event: reaches
`handleDataAvailable` only while that listener is attached. -/
def platformDataEvent (c : Core) (b : Blob) : Core × List Emit :=
  if c.listenersAttached then handleDataAvailable c b else (c, [])

/-- Result of delivering a platform `stop` event. -/
structure PlatStopOut where
  core : Core
  emits : List Emit
  /-- the resolution of a pending `stop()` promise (`handleFinalStop`). -/
  resolved : Option Blob
deriving Repr

/-- Delivery of the platform `stop` event. Listeners run in registration
order: `handleStop` (added in `start()`: builds the clip, `setState(Idle)`,
fires `onStop` when non-empty), then `handleFinalStop` (added in `stop()`:
builds the clip again and resolves the promise). -/
def platformStopEvent (c : Core) : PlatStopOut :=
  let (c1, e1) :=
    if c.listenersAttached then
      let audioBlob := mkClipBlob c
      let (c', e') := setStateCore c RecordingState.idle
      (c', e' ++
        (if 0 < audioBlob.size then
          match c'.events.onStop with
          | some cb => [Emit.stopEvent cb audioBlob]
          | none => []
        else []))
    else (c, [])
  if c1.pendingFinalStop then
    { core := { c1 with pendingFinalStop := false }, emits := e1,
      resolved := some (mkClipBlob c1) }
  else
    { core := c1, emits := e1, resolved := none }

/-- `cleanup()`: remove the three listeners and drop the recorder handle
(calling the platform stop first when `'recording'`), clear `audioChunks`,
`setState(Idle)`. `this.events` is not touched. -/
def cleanupCore (c : Core) : Core × List Emit :=
  let c1 :=
    match c.mediaRecorder with
    | some _ => { c with listenersAttached := false, mediaRecorder := none }
    | none => c
  let c2 := { c1 with audioChunks := [] }
  setStateCore c2 RecordingState.idle

/-! ### SilenceDetectorCore (silence-detector.core.ts) -/

/-- `SILENCE_THRESHOLD = 5`. -/
def SILENCE_THRESHOLD : ℚ := 5

/-- `SILENCE_DURATION_MS = 2500`. -/
def SILENCE_DURATION_MS : Nat := 2500

/-- The mean of the analyser's frequency-bin magnitudes:
`dataArray.reduce((acc, val) => acc + val, 0) / dataArray.length`. -/
def avgVolume (dataArray : List Nat) : ℚ :=
  ((dataArray.foldl (fun acc val => acc + val) 0 : Nat) : ℚ) / (dataArray.length : ℚ)

/-- Output of one pass of `monitorAudioLevel` on a monitoring instance. -/
structure TickResult where
  /-- new `this.silenceStartTime`. -/
  silenceStartTime : Option Nat
  /-- new `this.currentVolume` (also the `onVolumeChange` payload). -/
  currentVolume : ℚ
  /-- `onSilenceDetected` fired this tick. -/
  firedSilence : Bool
  /-- a next `requestAnimationFrame` tick was scheduled. -/
  reschedule : Bool
deriving Repr

/-- One pass of `private monitorAudioLevel` while monitoring: compute the
average magnitude, then the silence test against `Date.now()`; on
`now - silenceStartTime >= duration` fire `onSilenceDetected`, clear the
timer, and return without rescheduling. -/
def monitorTick (threshold : ℚ) (duration : Nat) (timer : Option Nat)
    (now : Nat) (dataArray : List Nat) : TickResult :=
  let average := avgVolume dataArray
  let isSilent := average < threshold
  if isSilent then
    match timer with
    | none =>
        { silenceStartTime := some now, currentVolume := average,
          firedSilence := false, reschedule := true }
    | some t0 =>
        if (duration : ℤ) ≤ (now : ℤ) - (t0 : ℤ) then
          { silenceStartTime := none, currentVolume := average,
            firedSilence := true, reschedule := false }
        else
          { silenceStartTime := some t0, currentVolume := average,
            firedSilence := false, reschedule := true }
  else
    { silenceStartTime := none, currentVolume := average,
      firedSilence := false, reschedule := true }

/-- Run the monitoring loop over a list of ticks, each a `(Date.now(),
frequency data)` pair; the loop stops after a fired silence detection (no
reschedule). Returns the final timer and the `Date.now()` of the
`onSilenceDetected` emission, if one fired. -/
def runTicks (threshold : ℚ) (duration : Nat) :
    Option Nat → List (Nat × List Nat) → Option Nat × Option Nat
  | timer, [] => (timer, none)
  | timer, (now, dataArray) :: rest =>
      let r := monitorTick threshold duration timer now dataArray
      if r.firedSilence then (r.silenceStartTime, some now)
      else runTicks threshold duration r.silenceStartTime rest

/-! ### AudioAnalyzerCore (audio-analyzer.core.ts) -/

/-- The platform decoder's output: first-channel sample array (floats in
[-1, 1]) and the decoder-reported sample rate. -/
structure DecodedAudioBuffer where
  sampleRate : ℚ
  channelData : List ℚ
deriving Repr

/-- `audioBuffer.duration` — per Web Audio, `length / sampleRate` seconds. -/
def bufferDuration (b : DecodedAudioBuffer) : ℚ :=
  (b.channelData.length : ℚ) / b.sampleRate

/-- `interface AudioMetrics { duration; averageVolume }`. -/
structure AudioMetrics where
  duration : ℚ
  averageVolume : ℚ
deriving DecidableEq, Repr

/-- The metric computation of `analyzeBlob` on a decoded buffer:
`duration = audioBuffer.duration * 1000`; sum of `Math.abs` over the first
channel, `averageAmplitude = sum / length`,
`averageVolume = Math.min(255, averageAmplitude * 255 * 10)`. -/
def analyzeDecoded (b : DecodedAudioBuffer) : AudioMetrics :=
  let duration := bufferDuration b * 1000
  let sum := (b.channelData.map (fun value => |value|)).sum
  let averageAmplitude := sum / (b.channelData.length : ℚ)
  let averageVolume := min 255 (averageAmplitude * 255 * 10)
  { duration := duration, averageVolume := averageVolume }

/-- The metric computation of `getPeakVolume` on a decoded buffer: running
max of `Math.abs(channelData[i] ?? 0)` from 0, then `Math.min(255, peak * 255)`. -/
def peakVolumeDecoded (b : DecodedAudioBuffer) : ℚ :=
  let peak := b.channelData.foldl (fun peak value => max peak |value|) 0
  min 255 (peak * 255)

/-- Outcome of the platform decode step (`audioContext.decodeAudioData`). -/
inductive DecodeOutcome where
  | ok (buf : DecodedAudioBuffer)
  | fail (msg : String)

/-- Observable run of an analyzer method: its result plus whether the
decoding `AudioContext` was created and whether it was closed. -/
structure AnalyzerRun where
  result : Except String AudioMetrics
  contextCreated : Bool
  contextClosed : Bool

/-- `static async analyzeBlob(audioBlob)`: unsupported env throws before any
context exists; otherwise a context is created, and `await audioContext.close()`
runs only on the success path — a decode rejection is wrapped and rethrown
from the `catch` without closing. -/
def analyzeBlobRun (supported : Bool) (decode : DecodeOutcome) : AnalyzerRun :=
  if supported = false then
    { result := Except.error "Web Audio API is not supported in this environment",
      contextCreated := false, contextClosed := false }
  else
    match decode with
    | DecodeOutcome.fail msg =>
        { result := Except.error ("Failed to analyze audio blob: " ++ msg),
          contextCreated := true, contextClosed := false }
    | DecodeOutcome.ok buf =>
        { result := Except.ok (analyzeDecoded buf),
          contextCreated := true, contextClosed := true }

/-- Observable run of `getPeakVolume`: same shape, numeric result. -/
structure PeakRun where
  result : Except String ℚ
  contextCreated : Bool
  contextClosed : Bool

/-- `static async getPeakVolume(audioBlob)`: same lifecycle as
`analyzeBlob`, reporting the scaled peak instead of the mean. -/
def getPeakVolumeRun (supported : Bool) (decode : DecodeOutcome) : PeakRun :=
  if supported = false then
    { result := Except.error "Web Audio API is not supported in this environment",
      contextCreated := false, contextClosed := false }
  else
    match decode with
    | DecodeOutcome.fail msg =>
        { result := Except.error ("Failed to get peak volume: " ++ msg),
          contextCreated := true, contextClosed := false }
    | DecodeOutcome.ok buf =>
        { result := Except.ok (peakVolumeDecoded buf),
          contextCreated := true, contextClosed := true }

/-! ### StreamManagerCore (stream-manager.core.ts) -/

/-- `interface AudioConstraints` — all fields optional. -/
structure AudioConstraints where
  echoCancellation : Option Bool := none
  noiseSuppression : Option Bool := none
  sampleRate : Option Nat := none
deriving DecidableEq, Repr

/-- A fully-populated constraint set, as passed to `getUserMedia`. -/
structure ResolvedAudioConstraints where
  echoCancellation : Bool
  noiseSuppression : Bool
  sampleRate : Nat
deriving DecidableEq, Repr

/-- `DEFAULT_AUDIO_CONSTRAINTS = { echoCancellation: true, noiseSuppression:
true, sampleRate: 44100 }`. -/
def DEFAULT_AUDIO_CONSTRAINTS : ResolvedAudioConstraints :=
  { echoCancellation := true, noiseSuppression := true, sampleRate := 44100 }

/-- `const finalConstraints = { ...DEFAULT_AUDIO_CONSTRAINTS, ...constraints }`:
each field the caller supplies overrides the default, field by field. -/
def finalConstraints (constraints : AudioConstraints) : ResolvedAudioConstraints :=
  { echoCancellation :=
      constraints.echoCancellation.getD DEFAULT_AUDIO_CONSTRAINTS.echoCancellation,
    noiseSuppression :=
      constraints.noiseSuppression.getD DEFAULT_AUDIO_CONSTRAINTS.noiseSuppression,
    sampleRate :=
      constraints.sampleRate.getD DEFAULT_AUDIO_CONSTRAINTS.sampleRate }

/-- `async getStream(constraints)` up to the platform capture request: the
constraint set it passes to `navigator.mediaDevices.getUserMedia({ audio: … })`,
or the `MediaStreamError` code thrown before any request is made. -/
def getStreamRequest (supported : Bool) (constraints : AudioConstraints) :
    Except String ResolvedAudioConstraints :=
  if supported = false then Except.error "NOT_SUPPORTED"
  else Except.ok (finalConstraints constraints)

/-! ### Trace helpers and concrete evaluation data -/

/-- Deliver a sequence of platform `dataavailable` events to the instance. -/
def deliverAll (c : Core) (frags : List Blob) : Core :=
  frags.foldl (fun a b => (platformDataEvent a b).1) c

/-- A platform whose capability check passes and that accepts every mime
type for both probing and construction. -/
def allTypesPlatform : Platform :=
  { isSupported := true, isTypeSupported := fun _ => true,
    newRecorderOk := fun _ => true }

/-- A platform whose capability check passes but that reports no mime type
encodable, while `new MediaRecorder` still accepts the fallback type. -/
def lenientNoMimePlatform : Platform :=
  { isSupported := true, isTypeSupported := fun _ => false,
    newRecorderOk := fun _ => true }

/-- A platform whose capability check passes, that reports no mime type
encodable, and whose `new MediaRecorder` rejects every type. -/
def strictNoMimePlatform : Platform :=
  { isSupported := true, isTypeSupported := fun _ => false,
    newRecorderOk := fun _ => false }

/-- A platform that only accepts `audio/mp4`. -/
def mp4OnlyPlatform : Platform :=
  { isSupported := true, isTypeSupported := fun t => t = "audio/mp4",
    newRecorderOk := fun _ => true }

/-- Three fragments of sizes 10, 20 and 30 bytes. -/
def demoFrags : List Blob :=
  [{ data := List.replicate 10 1, type := "audio/webm" },
   { data := List.replicate 20 2, type := "audio/webm" },
   { data := List.replicate 30 3, type := "audio/webm" }]

/-- The silence timer value `t0` is legitimate for the processed tick prefix
`pre`: it was set at a sub-threshold tick `(t0, d0)`, every later processed
tick stayed sub-threshold, and the tick right before `(t0, d0)`, if any, was
at or above threshold (so `(t0, d0)` is the first sub-threshold tick of its
stretch). -/
def TimerOk (threshold : ℚ) (pre : List (Nat × List Nat)) (t0 : Nat) : Prop :=
  ∃ a d0 b, pre = a ++ (t0, d0) :: b ∧ avgVolume d0 < threshold ∧
    (∀ q ∈ b, avgVolume q.2 < threshold) ∧
    (a = [] ∨ ∃ a2 q, a = a2 ++ [q] ∧ threshold ≤ avgVolume q.2)

/-- A cleared silence timer is legitimate for the processed prefix `pre`:
nothing was processed yet, or the last processed tick was at or above
threshold. -/
def ClearOk (threshold : ℚ) (pre : List (Nat × List Nat)) : Prop :=
  pre = [] ∨ ∃ a2 q, pre = a2 ++ [q] ∧ threshold ≤ avgVolume q.2

/-! ## Theorems -/

/-- C6: for every `AudioRecorderCore` whose state is not `Recording`,
`stop()` resolves with an empty clip, raises no error (and emits nothing),
and performs no state transition; calling `stop()` twice in a row therefore
yields an empty result the second time without changing state. -/
theorem stop_noop_when_not_recording (c : Core)
    (h : c.state ≠ RecordingState.recording) :
    (stopCore c).core = c ∧ (stopCore c).emits = [] ∧
    (stopCore c).resolved = some { data := [], type := DEFAULT_MIME_TYPE } ∧
    (stopCore (stopCore c).core).core = c ∧
    (stopCore (stopCore c).core).resolved =
      some { data := [], type := DEFAULT_MIME_TYPE } := by
  have hcond : c.mediaRecorder = none ∨ c.state ≠ RecordingState.recording :=
    Or.inr h
  have e1 : stopCore c =
      { core := c, emits := [],
        resolved := some { data := [], type := DEFAULT_MIME_TYPE } } := by
    unfold stopCore
    rw [if_pos hcond]
  refine ⟨by rw [e1], by rw [e1], by rw [e1], ?_, ?_⟩ <;> rw [e1, e1]

theorem stop_noop_when_not_recording_witness :
    Core.init.state ≠ RecordingState.recording ∧
    (stopCore Core.init).resolved =
      some { data := [], type := DEFAULT_MIME_TYPE } ∧
    (stopCore Core.init).core = Core.init :=
  ⟨by decide,
   (stop_noop_when_not_recording Core.init (by decide)).2.2.1,
   (stop_noop_when_not_recording Core.init (by decide)).1⟩

/-- C9: whenever `stop()` is called while the state is not `Recording`
(including on a fresh instance), the empty clip it resolves with carries the
literal default content type `"audio/webm"`, even when the attached recorder
negotiated a different mime type `mt` at an earlier `start()`. -/
theorem stop_noop_resolves_default_webm (c : Core) (mt : String)
    (h1 : c.mediaRecorder = some { mimeType := mt })
    (h2 : c.state ≠ RecordingState.recording) :
    (stopCore c).resolved = some { data := [], type := "audio/webm" } ∧
    (stopCore Core.init).resolved = some { data := [], type := "audio/webm" } := by
  have hcond : c.mediaRecorder = none ∨ c.state ≠ RecordingState.recording :=
    Or.inr h2
  constructor
  · unfold stopCore
    rw [if_pos hcond]
    rfl
  · decide

theorem stop_noop_resolves_default_webm_witness :
    ((platformStopEvent (stopCore (startCore mp4OnlyPlatform
        { mimeType := some "audio/mp4" } Core.init).core).core).core.mediaRecorder =
      some { mimeType := "audio/mp4" }) ∧
    ((platformStopEvent (stopCore (startCore mp4OnlyPlatform
        { mimeType := some "audio/mp4" } Core.init).core).core).core.state ≠
      RecordingState.recording) ∧
    ((stopCore (platformStopEvent (stopCore (startCore mp4OnlyPlatform
        { mimeType := some "audio/mp4" } Core.init).core).core).core).resolved =
      some { data := [], type := "audio/webm" }) :=
  ⟨by decide, by decide,
   (stop_noop_resolves_default_webm _ "audio/mp4" (by decide) (by decide)).1⟩

/-- C8: the constraint set `getStream` passes to the platform capture
request equals the documented defaults (echoCancellation=true,
noiseSuppression=true, sampleRate=44100) overridden field-by-field by the
caller-supplied fields; omitted fields keep their defaults. -/
theorem getStream_merges_constraints_fieldwise (c : AudioConstraints) :
    getStreamRequest true c = Except.ok (finalConstraints c) ∧
    (c.echoCancellation = none → (finalConstraints c).echoCancellation = true) ∧
    (∀ v, c.echoCancellation = some v → (finalConstraints c).echoCancellation = v) ∧
    (c.noiseSuppression = none → (finalConstraints c).noiseSuppression = true) ∧
    (∀ v, c.noiseSuppression = some v → (finalConstraints c).noiseSuppression = v) ∧
    (c.sampleRate = none → (finalConstraints c).sampleRate = 44100) ∧
    (∀ v, c.sampleRate = some v → (finalConstraints c).sampleRate = v) := by
  refine ⟨rfl, ?_, ?_, ?_, ?_, ?_, ?_⟩
  · intro h
    simp [finalConstraints, h, DEFAULT_AUDIO_CONSTRAINTS]
  · intro v h
    simp [finalConstraints, h]
  · intro h
    simp [finalConstraints, h, DEFAULT_AUDIO_CONSTRAINTS]
  · intro v h
    simp [finalConstraints, h]
  · intro h
    simp [finalConstraints, h, DEFAULT_AUDIO_CONSTRAINTS]
  · intro v h
    simp [finalConstraints, h]

theorem getStream_merges_constraints_fieldwise_witness :
    (finalConstraints { sampleRate := some 48000 }).echoCancellation = true ∧
    (finalConstraints { sampleRate := some 48000 }).noiseSuppression = true ∧
    (finalConstraints { sampleRate := some 48000 }).sampleRate = 48000 :=
  ⟨(getStream_merges_constraints_fieldwise { sampleRate := some 48000 }).2.1 rfl,
   (getStream_merges_constraints_fieldwise { sampleRate := some 48000 }).2.2.2.1 rfl,
   (getStream_merges_constraints_fieldwise { sampleRate := some 48000 }).2.2.2.2.2.2
     48000 rfl⟩

/-- C7: `analyzeBlob` returns duration = sample count / sample rate × 1000
(milliseconds) and averageVolume = min(255, mean |amplitude| × 255 × 10); a
decoded buffer whose samples are all zero yields averageVolume 0 exactly. -/
theorem analyzeBlob_metric_formulas (b : DecodedAudioBuffer)
    (h : 0 < b.channelData.length) :
    (analyzeDecoded b).duration = (b.channelData.length : ℚ) / b.sampleRate * 1000 ∧
    (analyzeDecoded b).averageVolume =
      min 255 ((b.channelData.map (fun v => |v|)).sum /
        (b.channelData.length : ℚ) * 255 * 10) ∧
    ((∀ v ∈ b.channelData, v = 0) → (analyzeDecoded b).averageVolume = 0) := by
  refine ⟨rfl, rfl, fun hz => ?_⟩
  have hsum : (b.channelData.map (fun v => |v|)).sum = 0 := by
    apply List.sum_eq_zero
    intro x hx
    rcases List.mem_map.mp hx with ⟨v, hv, rfl⟩
    simp [hz v hv]
  simp [analyzeDecoded, hsum]

theorem analyzeBlob_metric_formulas_witness :
    0 < (({ sampleRate := 44100, channelData := [0, 0] } :
      DecodedAudioBuffer)).channelData.length ∧
    (analyzeDecoded { sampleRate := 44100, channelData := [0, 0] }).averageVolume = 0 :=
  ⟨by decide,
   (analyzeBlob_metric_formulas { sampleRate := 44100, channelData := [0, 0] }
     (by decide)).2.2 (by intro v hv; simp at hv; simp [hv])⟩

/-- C10: when `analyzeBlob` or `getPeakVolume` fails after creating its
decoding context (decode rejection), the context is not closed before the
wrapped error is propagated; it is released only on the success path. -/
theorem analyzer_context_closed_only_on_success (msg : String)
    (buf : DecodedAudioBuffer) :
    ((analyzeBlobRun true (DecodeOutcome.fail msg)).contextCreated = true ∧
     (analyzeBlobRun true (DecodeOutcome.fail msg)).contextClosed = false ∧
     (analyzeBlobRun true (DecodeOutcome.fail msg)).result =
       Except.error ("Failed to analyze audio blob: " ++ msg)) ∧
    (analyzeBlobRun true (DecodeOutcome.ok buf)).contextClosed = true ∧
    ((getPeakVolumeRun true (DecodeOutcome.fail msg)).contextCreated = true ∧
     (getPeakVolumeRun true (DecodeOutcome.fail msg)).contextClosed = false ∧
     (getPeakVolumeRun true (DecodeOutcome.fail msg)).result =
       Except.error ("Failed to get peak volume: " ++ msg)) ∧
    (getPeakVolumeRun true (DecodeOutcome.ok buf)).contextClosed = true := by
  refine ⟨⟨rfl, rfl, rfl⟩, rfl, ⟨rfl, rfl, rfl⟩, rfl⟩

/-- C3 (amended): after `cleanup()` in any state, the chunk sequence is
empty and the state is `Idle`; however the registered observers are NOT
detached — `this.events` is unchanged by `cleanup()`. -/
theorem cleanup_clears_but_keeps_observers (c : Core) :
    (cleanupCore c).1.audioChunks = [] ∧
    (cleanupCore c).1.state = RecordingState.idle ∧
    (cleanupCore c).1.events = c.events := by
  cases hm : c.mediaRecorder <;>
    simp [cleanupCore, hm, setStateCore]

/-- C3 counterexample: a state-change callback registered before `cleanup()`
is still registered afterwards and is invoked by the instance again after
cleanup has completed (here: by a second `cleanup()` call), refuting
"no callback registered before cleanup can be invoked by the instance
afterwards". -/
theorem cleanup_observer_still_invoked_cex :
    (cleanupCore (onEvents Core.init { onStateChange := some 7 })).2 =
      [Emit.stateChange 7 RecordingState.idle] ∧
    (cleanupCore (onEvents Core.init { onStateChange := some 7 })).1.events.onStateChange =
      some 7 ∧
    (cleanupCore (cleanupCore (onEvents Core.init { onStateChange := some 7 })).1).2 =
      [Emit.stateChange 7 RecordingState.idle] := by
  decide

/-- C1 (code evaluated at the failing input): on a platform where the
capability check passes but no candidate mime type is reported encodable,
`getSupportedMimeType` is `null`, yet `start()` does not fail with
`NOT_SUPPORTED`: the `|| DEFAULT_MIME_TYPE` fallback makes the
`if (!mimeType)` branch unreachable, so recording begins with `audio/webm`
when the platform constructor accepts it, and when the constructor rejects
it the error code is `RECORDING_FAILED` instead. -/
theorem start_unsupported_mime_is_dead_code :
    getSupportedMimeType lenientNoMimePlatform (some "audio/webm") = none ∧
    (startCore lenientNoMimePlatform { mimeType := some "audio/webm" } Core.init).threw =
      none ∧
    (startCore lenientNoMimePlatform { mimeType := some "audio/webm" } Core.init).core.state =
      RecordingState.recording ∧
    (startCore lenientNoMimePlatform { mimeType := some "audio/webm" } Core.init).core.mediaRecorder =
      some { mimeType := "audio/webm" } ∧
    (startCore strictNoMimePlatform { mimeType := some "audio/webm" } Core.init).threw =
      some "RECORDING_FAILED" := by
  refine ⟨rfl, rfl, rfl, rfl, rfl⟩

/-- C2 counterexample: after `start()` and the synchronous part of `stop()`
the state is `Processing`, and a platform `dataavailable` event delivered at
that point (the recorder's final flush) appends its chunk — refuting "no
chunk is ever appended while the state is Idle or Processing". -/
theorem chunk_appended_in_processing_cex :
    ((stopCore (startCore allTypesPlatform {} Core.init).core).core.state =
      RecordingState.processing) ∧
    ((stopCore (startCore allTypesPlatform {} Core.init).core).core.audioChunks = []) ∧
    ((platformDataEvent (stopCore (startCore allTypesPlatform {} Core.init).core).core
        { data := [1, 2, 3], type := "audio/webm" }).1.audioChunks =
      [{ data := [1, 2, 3], type := "audio/webm" }]) := by
  refine ⟨rfl, rfl, by decide⟩

/-- C2 (amended): `handleDataAvailable` appends a delivered fragment exactly
when its size is positive, with no guard on the controller state — in
particular a fragment delivered while the state is `Processing` (between the
stop request and the platform stop confirmation) is appended all the same. -/
theorem chunk_append_guarded_only_by_size (c : Core) (b : Blob)
    (h : c.listenersAttached = true) :
    ((platformDataEvent c b).1.audioChunks =
      if 0 < b.size then c.audioChunks ++ [b] else c.audioChunks) ∧
    ((platformDataEvent { c with state := RecordingState.processing } b).1.audioChunks =
      if 0 < b.size then c.audioChunks ++ [b] else c.audioChunks) := by
  constructor <;> by_cases hb : 0 < b.size <;>
    simp [platformDataEvent, handleDataAvailable, h, hb]

theorem chunk_append_guarded_only_by_size_witness :
    (({ state := RecordingState.processing, listenersAttached := true } :
        Core).listenersAttached = true) ∧
    ((platformDataEvent { state := RecordingState.processing, listenersAttached := true }
        { data := [5], type := "audio/webm" }).1.audioChunks =
      [{ data := [5], type := "audio/webm" }]) := by
  refine ⟨rfl, ?_⟩
  have h := (chunk_append_guarded_only_by_size
      { state := RecordingState.processing, listenersAttached := true }
      { data := [5], type := "audio/webm" } rfl).1
  simpa using h

/-- A mime type returned by `getSupportedMimeType` is never the empty
string: every probed candidate is non-empty. -/
lemma getSupportedMimeType_ne_empty (p : Platform) (pref : Option String)
    (t : String) (h : getSupportedMimeType p pref = some t) : t ≠ "" := by
  intro ht
  subst ht
  unfold getSupportedMimeType at h
  by_cases hs : p.isSupported = false
  · rw [if_pos hs] at h
    exact Option.noConfusion h
  · rw [if_neg hs] at h
    have hmem := List.mem_of_find?_eq_some h
    simp only [List.mem_cons, List.not_mem_nil, or_false] at hmem
    cases pref with
    | none =>
        rcases hmem with hmem | hmem | hmem | hmem <;>
          exact absurd hmem.symm (by decide)
    | some s =>
        rcases hmem with hmem | hmem | hmem | hmem
        · by_cases hse : s = ""
          · subst hse
            simp [DEFAULT_MIME_TYPE, AudioMimeType.WEBM] at hmem
          · simp only [hse, if_false] at hmem
            exact hse hmem.symm
        · exact absurd hmem.symm (by decide)
        · exact absurd hmem.symm (by decide)
        · exact absurd hmem.symm (by decide)

/-- Delivering the platform `stop` event to a core whose `start()` listeners
are attached and that has a pending `stop()` promise resolves that promise
with the clip built from the current chunk sequence and negotiated type. -/
lemma platformStopEvent_resolved (c : Core) (hl : c.listenersAttached = true)
    (hp : c.pendingFinalStop = true) :
    (platformStopEvent c).resolved = some (mkClipBlob c) := by
  unfold platformStopEvent
  rw [hl]
  simp only [if_true, setStateCore]
  cases h1 : c.events.onStateChange <;>
    cases h2 : c.events.onStop <;>
      by_cases h3 : 0 < (mkClipBlob c).size <;>
        simp_all [mkClipBlob, hp]

/-- Delivering a list of non-empty fragments while the listeners are
attached appends them all to the chunk sequence and changes nothing else. -/
lemma deliverAll_spec (frags : List Blob) (c : Core)
    (hl : c.listenersAttached = true) (hf : ∀ b ∈ frags, 0 < b.size) :
    (deliverAll c frags).audioChunks = c.audioChunks ++ frags ∧
    (deliverAll c frags).listenersAttached = true ∧
    (deliverAll c frags).mediaRecorder = c.mediaRecorder ∧
    (deliverAll c frags).state = c.state ∧
    (deliverAll c frags).pendingFinalStop = c.pendingFinalStop := by
  induction frags generalizing c with
  | nil => exact ⟨by simp [deliverAll], hl, rfl, rfl, rfl⟩
  | cons b rest ih =>
    have hb : 0 < b.size := hf b (by simp)
    have hstep : (platformDataEvent c b).1 =
        { c with audioChunks := c.audioChunks ++ [b] } := by
      simp [platformDataEvent, handleDataAvailable, hl, hb]
    have hrest : ∀ x ∈ rest, 0 < x.size := fun x hx => hf x (by simp [hx])
    have hchain : deliverAll c (b :: rest) =
        deliverAll { c with audioChunks := c.audioChunks ++ [b] } rest := by
      simp [deliverAll, hstep]
    rw [hchain]
    obtain ⟨h1, h2, h3, h4, h5⟩ :=
      ih { c with audioChunks := c.audioChunks ++ [b] } hl hrest
    refine ⟨?_, h2, h3, h4, h5⟩
    rw [h1]
    simp

/-- C5: for every recording session in which fragments `F1..Fn`, each of
positive size, are delivered between `start()` and `stop()`, the clip the
stop path resolves with has byte length equal to the sum of the fragment
sizes and carries the content type negotiated at `start()`. -/
theorem round_trip_clip (p : Platform) (opts : AudioRecorderCoreOptions)
    (frags : List Blob)
    (hsup : p.isSupported = true)
    (hnew : ∀ t, p.newRecorderOk t = true)
    (hf : ∀ b ∈ frags, 0 < b.size) :
    ((platformStopEvent (stopCore
        (deliverAll (startCore p opts Core.init).core frags)).core).resolved.map
          Blob.size =
      some ((frags.map Blob.size).sum)) ∧
    ((platformStopEvent (stopCore
        (deliverAll (startCore p opts Core.init).core frags)).core).resolved.map
          Blob.type =
      some ((getSupportedMimeType p opts.mimeType).getD DEFAULT_MIME_TYPE)) := by
  set mt := (getSupportedMimeType p opts.mimeType).getD DEFAULT_MIME_TYPE with hmt
  have hmtne : mt ≠ "" := by
    rcases hval : getSupportedMimeType p opts.mimeType with _ | t
    · rw [hmt, hval]
      decide
    · rw [hmt, hval]
      exact getSupportedMimeType_ne_empty p opts.mimeType t hval
  -- the state after a successful start()
  have hstart : (startCore p opts Core.init).core =
      { mediaRecorder := some { mimeType := mt }, audioChunks := [],
        state := RecordingState.recording, events := {},
        listenersAttached := true, pendingFinalStop := false } := by
    unfold startCore
    rw [if_neg (by simp [hsup])]
    have : (decide (mt = "") || !p.newRecorderOk mt) = false := by
      simp [hnew mt, hmtne]
    simp only [← hmt, this, Bool.false_eq_true, if_false]
    rfl
  -- the state after delivering the fragments
  obtain ⟨hc1, hc2, hc3, hc4, hc5⟩ :=
    deliverAll_spec frags (startCore p opts Core.init).core
      (by rw [hstart]) hf
  set s2 := deliverAll (startCore p opts Core.init).core frags with hs2
  rw [hstart] at hc1 hc3 hc4 hc5
  simp only at hc1 hc3 hc4 hc5
  -- the synchronous part of stop()
  have hnostop : ¬(s2.mediaRecorder = none ∨ s2.state ≠ RecordingState.recording) := by
    rw [hc3, hc4]
    simp
  have hstop : (stopCore s2).core =
      { s2 with state := RecordingState.processing, pendingFinalStop := true } := by
    unfold stopCore
    rw [if_neg hnostop]
    simp [setStateCore]
  -- the platform stop confirmation
  rw [hstop]
  have hl3 : ({ s2 with
      state := RecordingState.processing,
      pendingFinalStop := true } : Core).listenersAttached = true := hc2
  rw [platformStopEvent_resolved _ hl3 rfl]
  have hclipdata : (mkClipBlob { s2 with
      state := RecordingState.processing,
      pendingFinalStop := true }).data = (frags.map Blob.data).flatten := by
    simp [mkClipBlob, hc1]
  have hcliptype : (mkClipBlob { s2 with
      state := RecordingState.processing,
      pendingFinalStop := true }).type = mt := by
    simp [mkClipBlob, hc3, hmtne]
  have hsz : (mkClipBlob { s2 with
      state := RecordingState.processing,
      pendingFinalStop := true }).size = (frags.map Blob.size).sum := by
    rw [Blob.size, hclipdata, List.length_flatten, List.map_map]
    rfl
  exact ⟨by simp [hsz], by simp [hcliptype]⟩

theorem round_trip_clip_witness :
    allTypesPlatform.isSupported = true ∧
    (∀ b ∈ demoFrags, 0 < b.size) ∧
    ((platformStopEvent (stopCore
        (deliverAll (startCore allTypesPlatform {} Core.init).core demoFrags)).core).resolved.map
          Blob.size = some 60) ∧
    ((platformStopEvent (stopCore
        (deliverAll (startCore allTypesPlatform {} Core.init).core demoFrags)).core).resolved.map
          Blob.type = some "audio/webm") := by
  have h := round_trip_clip allTypesPlatform {} demoFrags rfl (fun _ => rfl)
    (by decide)
  refine ⟨rfl, by decide, ?_, ?_⟩
  · have h1 := h.1
    simpa [demoFrags, Blob.size] using h1
  · have h2 := h.2
    simpa using h2

/-- A legitimate timer stays legitimate when one more sub-threshold tick is
processed. -/
lemma TimerOk.append_silent (th : ℚ) (pre : List (Nat × List Nat)) (t0 : Nat)
    (q : Nat × List Nat) (h : TimerOk th pre t0) (hq : avgVolume q.2 < th) :
    TimerOk th (pre ++ [q]) t0 := by
  obtain ⟨a, d0, b, hsplit, hd0, hb, ha⟩ := h
  refine ⟨a, d0, b ++ [q], ?_, hd0, ?_, ha⟩
  · rw [hsplit]
    simp
  · intro x hx
    rcases List.mem_append.mp hx with hx | hx
    · exact hb x hx
    · simp only [List.mem_singleton] at hx
      subst hx
      exact hq

/-- Soundness invariant for the monitoring loop: whenever the run fires at
time `tf`, the fire tick is sub-threshold and there is a timer value `t0`
legitimate for everything processed before it, with `tf - t0 ≥ duration`. -/
lemma runTicks_fire_sound_aux (th : ℚ) (du : Nat) :
    ∀ (ticks pre : List (Nat × List Nat)) (timer : Option Nat),
      (timer = none → ClearOk th pre) →
      (∀ t0, timer = some t0 → TimerOk th pre t0) →
      ∀ tf, (runTicks th du timer ticks).2 = some tf →
      ∃ mid d post t0, ticks = mid ++ (tf, d) :: post ∧ avgVolume d < th ∧
        TimerOk th (pre ++ mid) t0 ∧ (du : ℤ) ≤ (tf : ℤ) - (t0 : ℤ) := by
  intro ticks
  induction ticks with
  | nil =>
      intro pre timer h0 h1 tf hf
      simp [runTicks] at hf
  | cons hd rest ih =>
      rintro pre timer h0 h1 tf hf
      obtain ⟨now, dataArr⟩ := hd
      by_cases hsil : avgVolume dataArr < th
      · cases timer with
        | none =>
            have hstep : runTicks th du none ((now, dataArr) :: rest) =
                runTicks th du (some now) rest := by
              simp [runTicks, monitorTick, hsil]
            rw [hstep] at hf
            have hok : TimerOk th (pre ++ [(now, dataArr)]) now :=
              ⟨pre, dataArr, [], by simp, hsil, by simp, h0 rfl⟩
            obtain ⟨mid, d, post, t0, hsplit, hd2, hok2, hge⟩ :=
              ih (pre ++ [(now, dataArr)]) (some now)
                (fun hx => Option.noConfusion hx)
                (fun t0 ht => by
                  injection ht with ht
                  subst ht
                  exact hok) tf hf
            refine ⟨(now, dataArr) :: mid, d, post, t0, by rw [hsplit]; rfl,
              hd2, ?_, hge⟩
            simpa [List.append_assoc] using hok2
        | some t0 =>
            by_cases hdur : (du : ℤ) ≤ (now : ℤ) - (t0 : ℤ)
            · have hstep : runTicks th du (some t0) ((now, dataArr) :: rest) =
                  (none, some now) := by
                simp [runTicks, monitorTick, hsil, hdur]
              rw [hstep] at hf
              injection hf with hf
              subst hf
              exact ⟨[], dataArr, rest, t0, by simp, hsil,
                by simpa using h1 t0 rfl, hdur⟩
            · have hstep : runTicks th du (some t0) ((now, dataArr) :: rest) =
                  runTicks th du (some t0) rest := by
                simp [runTicks, monitorTick, hsil, hdur]
              rw [hstep] at hf
              obtain ⟨mid, d, post, t1, hsplit, hd2, hok2, hge⟩ :=
                ih (pre ++ [(now, dataArr)]) (some t0)
                  (fun hx => Option.noConfusion hx)
                  (fun t1 ht => by
                    injection ht with ht
                    subst ht
                    exact TimerOk.append_silent th pre t0 (now, dataArr)
                      (h1 t0 rfl) hsil) tf hf
              exact ⟨(now, dataArr) :: mid, d, post, t1, by rw [hsplit]; rfl,
                hd2, by simpa [List.append_assoc] using hok2, hge⟩
      · have hstep : runTicks th du timer ((now, dataArr) :: rest) =
            runTicks th du none rest := by
          simp [runTicks, monitorTick, hsil]
        rw [hstep] at hf
        have hclear : ClearOk th (pre ++ [(now, dataArr)]) :=
          Or.inr ⟨pre, (now, dataArr), rfl, le_of_not_lt hsil⟩
        obtain ⟨mid, d, post, t1, hsplit, hd2, hok2, hge⟩ :=
          ih (pre ++ [(now, dataArr)]) none (fun _ => hclear)
            (fun t1 ht => Option.noConfusion ht) tf hf
        exact ⟨(now, dataArr) :: mid, d, post, t1, by rw [hsplit]; rfl,
          hd2, by simpa [List.append_assoc] using hok2, hge⟩

/-- Liveness of the monitoring loop: with the timer set at `t0` and a stream
of sub-threshold ticks one of which is at least `duration` past `t0`, the
detection fires, no earlier than `t0 + duration`. -/
lemma runTicks_fires_aux (th : ℚ) (du : Nat) :
    ∀ (ticks : List (Nat × List Nat)) (t0 : Nat),
      (∀ q ∈ ticks, avgVolume q.2 < th) →
      (∃ q ∈ ticks, (du : ℤ) ≤ (q.1 : ℤ) - (t0 : ℤ)) →
      ∃ tf, (runTicks th du (some t0) ticks).2 = some tf ∧ t0 + du ≤ tf := by
  intro ticks
  induction ticks with
  | nil =>
      rintro t0 _ ⟨q, hq, _⟩
      exact absurd hq (List.not_mem_nil q)
  | cons hd rest ih =>
      rintro t0 hsub ⟨q, hq, hwit⟩
      obtain ⟨now, dataArr⟩ := hd
      have hsil : avgVolume dataArr < th := hsub (now, dataArr) (by simp)
      by_cases hdur : (du : ℤ) ≤ (now : ℤ) - (t0 : ℤ)
      · refine ⟨now, ?_, by omega⟩
        simp [runTicks, monitorTick, hsil, hdur]
      · have hstep : runTicks th du (some t0) ((now, dataArr) :: rest) =
            runTicks th du (some t0) rest := by
          simp [runTicks, monitorTick, hsil, hdur]
        rw [hstep]
        have hq2 : q ∈ rest := by
          rcases List.mem_cons.mp hq with hq | hq
          · subst hq
            exact absurd (by simpa using hwit) hdur
          · exact hq
        exact ih t0 (fun x hx => hsub x (by simp [hx])) ⟨q, hq2, hwit⟩

/-- C4: (1) any sample at or above threshold clears the silence timer
unconditionally (and cannot fire); (2) a silence-detected notification is
emitted only at a sub-threshold tick at least `silenceDuration` after the
timer was set at the first sub-threshold tick of an uninterrupted
sub-threshold stretch (`TimerOk`); (3) under a constant stream of
sub-threshold samples reaching `silenceDuration` past the first one, the
notification fires, no earlier than `silenceDuration` after the first
sub-threshold sample. -/
theorem silence_detection_correct (th : ℚ) (du : Nat) :
    (∀ (timer : Option Nat) (now : Nat) (dataArr : List Nat),
       th ≤ avgVolume dataArr →
       monitorTick th du timer now dataArr =
         { silenceStartTime := none, currentVolume := avgVolume dataArr,
           firedSilence := false, reschedule := true }) ∧
    (∀ (ticks : List (Nat × List Nat)) (tf : Nat),
       (runTicks th du none ticks).2 = some tf →
       ∃ mid d post t0, ticks = mid ++ (tf, d) :: post ∧ avgVolume d < th ∧
         TimerOk th mid t0 ∧ (du : ℤ) ≤ (tf : ℤ) - (t0 : ℤ) ∧ t0 + du ≤ tf) ∧
    (∀ (t1 : Nat) (d1 : List Nat) (rest : List (Nat × List Nat)),
       avgVolume d1 < th → (∀ q ∈ rest, avgVolume q.2 < th) →
       (∃ q ∈ rest, (du : ℤ) ≤ (q.1 : ℤ) - (t1 : ℤ)) →
       ∃ tf, (runTicks th du none ((t1, d1) :: rest)).2 = some tf ∧
         t1 + du ≤ tf) := by
  refine ⟨?_, ?_, ?_⟩
  · intro timer now dataArr hloud
    have hns : ¬ avgVolume dataArr < th := not_lt.mpr hloud
    cases timer <;> simp [monitorTick, hns]
  · intro ticks tf hf
    obtain ⟨mid, d, post, t0, hsplit, hd2, hok, hge⟩ :=
      runTicks_fire_sound_aux th du ticks [] none (fun _ => Or.inl rfl)
        (fun t0 ht => Option.noConfusion ht) tf hf
    exact ⟨mid, d, post, t0, hsplit, hd2, by simpa using hok, hge, by omega⟩
  · intro t1 d1 rest hd1 hsub hex
    have hstep : runTicks th du none ((t1, d1) :: rest) =
        runTicks th du (some t1) rest := by
      simp [runTicks, monitorTick, hd1]
    rw [hstep]
    exact runTicks_fires_aux th du rest t1 hsub hex

theorem silence_detection_correct_witness :
    ((5 : ℚ) ≤ avgVolume [10] ∧
     (monitorTick 5 2500 (some 0) 600 [10]).silenceStartTime = none) ∧
    (∃ tf, (runTicks 5 2500 none
        [(0, [2]), (1000, [2]), (2000, [2]), (3000, [2])]).2 = some tf ∧
      0 + 2500 ≤ tf) := by
  have hl : (5 : ℚ) ≤ avgVolume [10] := by
    norm_num [avgVolume]
  have h1 := (silence_detection_correct 5 2500).1 (some 0) 600 [10] hl
  refine ⟨⟨hl, by rw [h1]⟩, ?_⟩
  refine (silence_detection_correct 5 2500).2.2 0 [2]
    [(1000, [2]), (2000, [2]), (3000, [2])] ?_ ?_ ?_
  · norm_num [avgVolume]
  · intro q hq
    simp only [List.mem_cons, List.not_mem_nil, or_false] at hq
    rcases hq with hq | hq | hq <;> subst hq <;> norm_num [avgVolume]
  · refine ⟨(3000, [2]), by simp, by norm_num⟩

end Kaizen
